import Mathlib

/-!
# matrix_multiply.c : host side of an OpenCL matrix multiplication

A shallow embedding of `matrix_multiply.c` and the properties of its
marshalling functions, its device selection and the control flow of `main`.

Conventions of the embedding

* `unsigned long` is 64 bits wide: every value computed in that type is taken
  modulo `ULONG_MOD`.
* `cl_int` is a 32-bit two's complement integer, an `Int` in the range
  `[-2^31, 2^31)`.
* A block of memory is a partial map from cell index to content; a cell that was
  never written holds `none`.  `malloc` yields a block with no written cell; the size
  of a block in bytes and the failure of an allocation are outside the embedding.  A
  `float**` is a table of row pointers, each either unset or pointing to a block.
* `for (i = 0; i < n; ++i) body` is `forLoop n body`.
* A `float` is a binary32 number with round-to-nearest-even arithmetic.
* The device API is an environment that fixes the error code of each call; `main`
  yields the list of device calls it made, its exit status and the matrix it printed.
  Console output and `free` are left out.
-/

namespace MatrixMultiply

/-! ## Memory and loops -/

/-- One more than the largest `unsigned long`. -/
def ULONG_MOD : Nat := 2 ^ 64

/-- A block of cells (`float*`). -/
abbrev Vec (α : Type) := Nat → Option α

/-- A table of row pointers (`float**`). -/
abbrev Mat (α : Type) := Nat → Option (Vec α)

/-- A freshly allocated block: no cell written yet. -/
def Vec.empty {α : Type} : Vec α := fun _ => none

/-- The assignment `v[k] = x`. -/
def Vec.store {α : Type} (v : Vec α) (k : Nat) (x : Option α) : Vec α :=
  fun n => if n = k then x else v n

/-- A freshly allocated table of row pointers: no row set yet. -/
def Mat.empty {α : Type} : Mat α := fun _ => none

/-- The value of the expression `m[i][j]`. -/
def Mat.load {α : Type} (m : Mat α) (i j : Nat) : Option α :=
  (m i).bind (fun row => row j)

/-- The assignment `m[i] = row`. -/
def Mat.setRow {α : Type} (m : Mat α) (i : Nat) (row : Vec α) : Mat α :=
  fun n => if n = i then some row else m n

/-- The assignment `m[i][j] = x`; it has no effect when `m[i]` was never set. -/
def Mat.store {α : Type} (m : Mat α) (i j : Nat) (x : Option α) : Mat α :=
  match m i with
  | some row => m.setRow i (row.store j x)
  | none => m

/-- The loop `for (i = 0; i < n; ++i) s = body i s`. -/
def forLoop {σ : Type} : Nat → (Nat → σ → σ) → σ → σ
  | 0, _, s => s
  | n + 1, body, s => body n (forLoop n body s)

/-! ## Marshalling between matrices and vectors -/

/-- The statement `v[k++] = m[i][j]` of `matrix_to_vector` on the state `(v, k)`. -/
def mtvStep {α : Type} (m : Mat α) (i j : Nat) (s : Vec α × Nat) : Vec α × Nat :=
  (s.1.store s.2 (m.load i j), (s.2 + 1) % ULONG_MOD)

/-- The function `matrix_to_vector(m, l, c, vlen)`.  The flag `vlen` says whether the
out-parameter is non-null; the second component is what is stored through it. -/
def matrix_to_vector {α : Type} (m : Mat α) (l c : Nat) (vlen : Bool) :
    Vec α × Option Nat :=
  let s := forLoop l (fun i s => forLoop c (fun j s => mtvStep m i j s) s) (Vec.empty, 0)
  (s.1, if vlen then some (l * c % ULONG_MOD) else none)

/-- The statement `r[i][j] = v[k++]` of `vector_to_matrix` on the state `(r, k)`. -/
def vtmStep {α : Type} (v : Vec α) (i j : Nat) (s : Mat α × Nat) : Mat α × Nat :=
  (s.1.store i j (v s.2), (s.2 + 1) % ULONG_MOD)

/-- The function `vector_to_matrix(v, vlen, cv)`.  Dividing by `cv = 0` is undefined:
the result is `none`. -/
def vector_to_matrix {α : Type} (v : Vec α) (vlen cv : Nat) : Option (Mat α) :=
  if cv = 0 then none
  else
    let mlines := vlen / cv
    let r := forLoop mlines (fun i r => r.setRow i Vec.empty) Mat.empty
    let s := forLoop mlines (fun i s => forLoop cv (fun j s => vtmStep v i j s) s) (r, 0)
    some s.1

/-- The table `r` has exactly `l` rows and each of them exactly `c` written cells. -/
def HasShape {α : Type} (r : Mat α) (l c : Nat) : Prop :=
  (∀ i, (r i).isSome = true ↔ i < l) ∧
    ∀ i, i < l → ∀ j, ((r.load i j).isSome = true ↔ j < c)

/-! ## Single-precision arithmetic -/

/-- A `float`.  A finite value of sign `neg` and magnitude `mag` stands for
`± mag · 2^-149`: every finite binary32 number is such a multiple with at most 24
significant bits. -/
inductive F32
  | finite (neg : Bool) (mag : Nat)
  | inf (neg : Bool)
  | nan
  deriving DecidableEq

/-- Magnitude of `FLT_MAX` in units of `2^-149`. -/
def F32.maxMag : Nat := (2 ^ 24 - 1) * 2 ^ 253

/-- The constant `0.0f`. -/
def F32.zero : F32 := F32.finite false 0

/-- The constant `1.0f`. -/
def F32.one : F32 := F32.finite false (2 ^ 149)

/-- The `float` nearest to the natural number `n`, exact for `n ≤ 2^24`. -/
def F32.ofNat (n : Nat) : F32 := F32.finite false (n * 2 ^ 149)

/-- Least `s ≥ s₀` with `n < 2^(24+s)`, searched upwards from `s₀`.  The fuel bounds the
search; 700 steps reach every exact sum or product of two finite values, which stay
below `2^554`. -/
def findShift : Nat → Nat → Nat → Nat
  | 0, s, _ => s
  | fuel + 1, s, n => if n < 2 ^ (24 + s) then s else findShift fuel (s + 1) n

/-- Round to nearest, ties to even, of the exact magnitude `n · 2^-(149+unit)` to 24
significant bits and a multiple of `2^-149`; overflow gives an infinity. -/
def roundMag (neg : Bool) (unit n : Nat) : F32 :=
  let s := findShift 700 unit n
  let q := n / 2 ^ s
  let r := n % 2 ^ s
  let q1 := if 2 ^ s < 2 * r ∨ (2 * r = 2 ^ s ∧ q % 2 = 1) then q + 1 else q
  let k := q1 * 2 ^ (s - unit)
  if F32.maxMag < k then F32.inf neg else F32.finite neg k

/-- Addition of two `float`s, correctly rounded. -/
def fadd : F32 → F32 → F32
  | F32.nan, _ => F32.nan
  | _, F32.nan => F32.nan
  | F32.inf a, F32.inf b => if a = b then F32.inf a else F32.nan
  | F32.inf a, F32.finite _ _ => F32.inf a
  | F32.finite _ _, F32.inf b => F32.inf b
  | F32.finite a x, F32.finite b y =>
    if a = b then roundMag a 0 (x + y)
    else if x = y then F32.finite false 0
    else if y < x then roundMag a 0 (x - y)
    else roundMag b 0 (y - x)

/-- Multiplication of two `float`s, correctly rounded. -/
def fmul : F32 → F32 → F32
  | F32.nan, _ => F32.nan
  | _, F32.nan => F32.nan
  | F32.inf a, F32.inf b => F32.inf (xor a b)
  | F32.inf a, F32.finite b y => if y = 0 then F32.nan else F32.inf (xor a b)
  | F32.finite a x, F32.inf b => if x = 0 then F32.nan else F32.inf (xor a b)
  | F32.finite a x, F32.finite b y => roundMag (xor a b) 149 (x * y)

/-! ## Error codes -/

/-- The value is a `cl_int`. -/
def IsClInt (x : Int) : Prop := -2 ^ 31 ≤ x ∧ x < 2 ^ 31

instance (x : Int) : Decidable (IsClInt x) := by
  unfold IsClInt
  infer_instance

/-- The error code `CL_DEVICE_NOT_FOUND`. -/
def CL_DEVICE_NOT_FOUND : Int := -1

/-- The 32-bit pattern of a `cl_int`. -/
def clBits (x : Int) : Nat := (x % 2 ^ 32).toNat

/-- The `cl_int` of a 32-bit pattern. -/
def clOfBits (p : Nat) : Int := if p < 2 ^ 31 then (p : Int) else (p : Int) - 2 ^ 32

/-- The expression `a | b` on two `cl_int`s. -/
def clOr (a b : Int) : Int := clOfBits (clBits a ||| clBits b)

/-! ## The device API as seen by the host -/

/-- What the environment answers to each call `main` makes: the error code of every
device-API call and whether `fopen` finds the program file. -/
structure Env where
  platformErr : Int
  gpuErr : Int
  cpuErr : Int
  contextErr : Int
  fileFound : Bool
  programErr : Int
  buildErr : Int
  bufAErr : Int
  bufBErr : Int
  bufOutErr : Int
  queueErr : Int
  kernelErr : Int
  arg0Err : Int
  arg1Err : Int
  arg2Err : Int
  arg3Err : Int
  arg4Err : Int
  enqueueErr : Int
  readErr : Int

/-- An environment in which every call succeeds. -/
def Env.ok : Env :=
  { platformErr := 0, gpuErr := 0, cpuErr := 0, contextErr := 0, fileFound := true,
    programErr := 0, buildErr := 0, bufAErr := 0, bufBErr := 0, bufOutErr := 0,
    queueErr := 0, kernelErr := 0, arg0Err := 0, arg1Err := 0, arg2Err := 0,
    arg3Err := 0, arg4Err := 0, enqueueErr := 0, readErr := 0 }

/-- Every call succeeds except the creation of the first input buffer, which reports
`CL_MEM_OBJECT_ALLOCATION_FAILURE`. -/
def Env.bufAFails : Env := { Env.ok with bufAErr := -4 }

/-- Every call succeeds except the third argument binding, which reports
`CL_INVALID_MEM_OBJECT`. -/
def Env.argFails : Env := { Env.ok with arg2Err := -38 }

/-- Every call succeeds but the GPU query, which reports `CL_DEVICE_NOT_FOUND`. -/
def Env.noGpu : Env := { Env.ok with gpuErr := -1 }

/-- Every call succeeds but the program file is missing. -/
def Env.noFile : Env := { Env.ok with fileFound := false }

/-- The two classes of device `create_device` asks for. -/
inductive Device
  | gpu
  | cpu
  deriving DecidableEq

/-- The handles `main` holds. -/
inductive Obj
  | device
  | context
  | program
  | bufA
  | bufB
  | bufOut
  | queue
  | kernel
  deriving DecidableEq

/-- The device-API calls of `main`, in the order they are made, each with the error
code it reported. -/
inductive Event
  | create (o : Obj) (err : Int)
  | build (err : Int)
  | setArg (index : Nat) (err : Int)
  | enqueueKernel (global_size local_size : Nat) (err : Int)
  | readBuffer (err : Int)
  | release (o : Obj)
  deriving DecidableEq

/-- The counting model of the device API: a create that succeeds adds its object, a
release removes it. -/
def liveStep (live : List Obj) : Event → List Obj
  | Event.create o err => if err < 0 then live else o :: live
  | Event.release o => live.erase o
  | _ => live

/-- The objects live after a sequence of calls. -/
def liveObjects (t : List Event) : List Obj := t.foldl liveStep []

/-- The objects released by a sequence of calls, in order. -/
def releases : List Event → List Obj
  | [] => []
  | Event.release o :: t => o :: releases t
  | _ :: t => releases t

/-- The kernel dispatches of a sequence of calls. -/
def dispatches : List Event → List Event
  | [] => []
  | Event.enqueueKernel g l e :: t => Event.enqueueKernel g l e :: dispatches t
  | _ :: t => dispatches t

/-- The queue creations of a sequence of calls. -/
def queueCreations : List Event → List Event
  | [] => []
  | Event.create Obj.queue e :: t => Event.create Obj.queue e :: queueCreations t
  | _ :: t => queueCreations t

/-! ## The program -/

/-- The macro `LM1`. -/
abbrev LM1 : Nat := 50

/-- The macro `CM`. -/
abbrev CM : Nat := 10

/-- The macro `CM2`. -/
abbrev CM2 : Nat := 70

/-- The function `create_device`; `none` is `exit(1)`. -/
def create_device (env : Env) : Option Device :=
  if env.platformErr < 0 then none
  else
    let err := env.gpuErr
    let dev := Device.gpu
    let (err, dev) :=
      if err = CL_DEVICE_NOT_FOUND then (env.cpuErr, Device.cpu) else (err, dev)
    if err < 0 then none else some dev

/-- The function `build_program`: the device calls it makes and whether it returns
(`false` is `exit(1)`). -/
def build_program (env : Env) : List Event × Bool :=
  if env.fileFound = false then ([], false)
  else
    let t := [Event.create Obj.program env.programErr]
    if env.programErr < 0 then (t, false)
    else
      let t := t ++ [Event.build env.buildErr]
      if env.buildErr < 0 then (t, false) else (t, true)

/-- The allocation and initialisation loops of `main` for one host matrix. -/
def fillRows (rows cols : Nat) (x : F32) : Mat F32 :=
  forLoop rows
    (fun i m => forLoop cols (fun j m => m.store i j (some x)) (m.setRow i Vec.empty))
    Mat.empty

/-- The assignments to `global_size` and `local_size` in `main`, with the dimension
macros as parameters. -/
def dispatchGeometry (rows_A cols_B : Nat) : Nat × Nat := (rows_A * cols_B, cols_B)

/-- The call `clCreateBuffer` with `CL_MEM_COPY_HOST_PTR`: the device buffer holds a
copy of the first `n` floats of the host block; a failed call gives no buffer. -/
def createBuffer (err : Int) (n : Nat) (host : Vec F32) : Vec F32 :=
  if err < 0 then Vec.empty else fun k => if k < n then host k else none

/-- One step of the kernel's sum: `acc + a * b`. -/
def macStep (acc a b : Option F32) : Option F32 :=
  match acc, a, b with
  | some s, some x, some y => some (fadd s (fmul x y))
  | _, _, _ => none

/-- Modelled from the spec: the kernel `multiply_matrix` of `matrix_multiply.cl`, which
is not among the sources.  Work-item `g` computes the sum over `t < wm1` of
`A[(g / wm2) * wm1 + t] * B[t * wm2 + g % wm2]`. -/
def multiply_matrix (A B : Vec F32) (wm1 wm2 g : Nat) : Option F32 :=
  forLoop wm1
    (fun t acc => macStep acc (A ((g / wm2) * wm1 + t)) (B (t * wm2 + g % wm2)))
    (some F32.zero)

/-- Modelled from the spec: the effect of the dispatch on the output buffer, one
element written by each work-item `g < global_size`. -/
def runKernel (A B out : Vec F32) (wm1 wm2 global_size : Nat) : Vec F32 :=
  fun g => if g < global_size then multiply_matrix A B wm1 wm2 g else out g

/-- The call `clEnqueueReadBuffer`: the first `n` floats of the device buffer are
copied into the host block. -/
def readBack (dev : Vec F32) (n : Nat) (host : Vec F32) : Vec F32 :=
  fun k => if k < n then dev k else host k

/-- The outcome of a run of `main`: the device calls it made, its exit status and the
matrix it printed. -/
structure Run where
  trace : List Event
  status : Nat
  res : Option (Mat F32)

/-- The statement `exit(1)` after the calls `t`. -/
def exitWith (t : List Event) : Run := ⟨t, 1, none⟩

/-- The function `main`. -/
def main (env : Env) : Run :=
  let m1 := fillRows LM1 CM F32.one
  let m2 := fillRows CM CM2 F32.one
  let res := fillRows LM1 CM2 F32.zero
  match create_device env with
  | none => exitWith []
  | some _ =>
    let t := [Event.create Obj.context env.contextErr]
    if env.contextErr < 0 then exitWith t
    else if (build_program env).2 = false then exitWith (t ++ (build_program env).1)
    else
      let t := t ++ (build_program env).1
      let m1size := LM1 * CM
      let m2size := CM * CM2
      let res_size := LM1 * CM2
      let vm1 := (matrix_to_vector m1 LM1 CM false).1
      let vm2 := (matrix_to_vector m2 CM CM2 false).1
      let vres := (matrix_to_vector res LM1 CM2 false).1
      let global_size := (dispatchGeometry LM1 CM2).1
      let local_size := (dispatchGeometry LM1 CM2).2
      let d_m1 := createBuffer env.bufAErr m1size vm1
      let d_m2 := createBuffer env.bufBErr m2size vm2
      let d_res := createBuffer env.bufOutErr res_size vres
      let t := t ++ [Event.create Obj.bufA env.bufAErr, Event.create Obj.bufB env.bufBErr,
        Event.create Obj.bufOut env.bufOutErr]
      -- `err` is assigned by each of the three calls and tested once, after the last
      let err := env.bufOutErr
      if err < 0 then exitWith t
      else
        let t := t ++ [Event.create Obj.queue env.queueErr]
        if env.queueErr < 0 then exitWith t
        else
          let t := t ++ [Event.create Obj.kernel env.kernelErr]
          if env.kernelErr < 0 then exitWith t
          else
            let wm1 := CM
            let wm2 := CM2
            let t := t ++ [Event.setArg 0 env.arg0Err, Event.setArg 1 env.arg1Err,
              Event.setArg 2 env.arg2Err, Event.setArg 3 env.arg3Err,
              Event.setArg 4 env.arg4Err]
            let err := clOr (clOr (clOr (clOr env.arg0Err env.arg1Err) env.arg2Err)
              env.arg3Err) env.arg4Err
            if err < 0 then exitWith t
            else
              let t := t ++ [Event.enqueueKernel global_size local_size env.enqueueErr]
              if env.enqueueErr < 0 then exitWith t
              else
                let d_res := runKernel d_m1 d_m2 d_res wm1 wm2 global_size
                let t := t ++ [Event.readBuffer env.readErr]
                if env.readErr < 0 then exitWith t
                else
                  let vres := readBack d_res res_size vres
                  let res := vector_to_matrix vres (LM1 * CM2 % 2 ^ 32) CM2
                  let t := t ++ [Event.release Obj.kernel, Event.release Obj.bufA,
                    Event.release Obj.bufB, Event.release Obj.bufOut,
                    Event.release Obj.queue, Event.release Obj.program,
                    Event.release Obj.context]
                  ⟨t, 0, res⟩

/-- The calls of a run of `main` that reaches its end. -/
def successTrace (env : Env) : List Event :=
  [Event.create Obj.context env.contextErr, Event.create Obj.program env.programErr,
    Event.build env.buildErr, Event.create Obj.bufA env.bufAErr,
    Event.create Obj.bufB env.bufBErr, Event.create Obj.bufOut env.bufOutErr,
    Event.create Obj.queue env.queueErr, Event.create Obj.kernel env.kernelErr,
    Event.setArg 0 env.arg0Err, Event.setArg 1 env.arg1Err, Event.setArg 2 env.arg2Err,
    Event.setArg 3 env.arg3Err, Event.setArg 4 env.arg4Err,
    Event.enqueueKernel (dispatchGeometry LM1 CM2).1 (dispatchGeometry LM1 CM2).2 env.enqueueErr, Event.readBuffer env.readErr,
    Event.release Obj.kernel, Event.release Obj.bufA, Event.release Obj.bufB,
    Event.release Obj.bufOut, Event.release Obj.queue, Event.release Obj.program,
    Event.release Obj.context]

/-- The matrix printed by a run of `main` that reaches its end. -/
def successRes (env : Env) : Option (Mat F32) :=
  vector_to_matrix
    (readBack
      (runKernel
        (createBuffer env.bufAErr (LM1 * CM)
          (matrix_to_vector (fillRows LM1 CM F32.one) LM1 CM false).1)
        (createBuffer env.bufBErr (CM * CM2)
          (matrix_to_vector (fillRows CM CM2 F32.one) CM CM2 false).1)
        (createBuffer env.bufOutErr (LM1 * CM2)
          (matrix_to_vector (fillRows LM1 CM2 F32.zero) LM1 CM2 false).1)
        CM CM2 (dispatchGeometry LM1 CM2).1)
      (LM1 * CM2) (matrix_to_vector (fillRows LM1 CM2 F32.zero) LM1 CM2 false).1)
    (LM1 * CM2 % 2 ^ 32) CM2

/-! ## Lemmas on the loops of the marshalling functions -/

theorem forLoop_succ {σ : Type} (n : Nat) (body : Nat → σ → σ) (s : σ) :
    forLoop (n + 1) body s = body n (forLoop n body s) := rfl

theorem div_mod_of_row (c i j : Nat) (hj : j < c) :
    (i * c + j) / c = i ∧ (i * c + j) % c = j := by
  have hc : 0 < c := by omega
  constructor
  · rw [Nat.mul_comm, Nat.mul_add_div hc, Nat.div_eq_of_lt hj, Nat.add_zero]
  · rw [Nat.mul_comm, Nat.mul_add_mod, Nat.mod_eq_of_lt hj]

theorem row_index_lt (l c i j : Nat) (hi : i < l) (hj : j < c) : i * c + j < l * c := by
  calc i * c + j < i * c + c := by omega
    _ = (i + 1) * c := by ring
    _ ≤ l * c := Nat.mul_le_mul_right c hi

theorem mtv_inner {α : Type} (m : Mat α) (i n : Nat) (v : Vec α) (k : Nat)
    (hk : k + n < ULONG_MOD) :
    forLoop n (fun j s => mtvStep m i j s) (v, k) =
      (fun idx => if k ≤ idx ∧ idx < k + n then m.load i (idx - k) else v idx, k + n) := by
  induction n with
  | zero =>
    simp only [forLoop, Nat.add_zero]
    congr 1
    funext idx
    rw [if_neg (by omega)]
  | succ n ih =>
    rw [forLoop_succ, ih (by omega)]
    simp only [mtvStep]
    rw [Nat.mod_eq_of_lt (by omega)]
    congr 1
    funext idx
    simp only [Vec.store]
    by_cases h1 : idx = k + n
    · subst h1
      rw [if_pos rfl, if_pos (by omega)]
      congr 1
      omega
    · rw [if_neg h1]
      by_cases h2 : k ≤ idx ∧ idx < k + n
      · rw [if_pos h2, if_pos (by omega)]
      · rw [if_neg h2, if_neg (by omega)]

theorem mtv_outer {α : Type} (m : Mat α) (c n : Nat) (hn : n * c < ULONG_MOD) :
    forLoop n (fun i s => forLoop c (fun j s => mtvStep m i j s) s) (Vec.empty, 0) =
      (fun idx => if idx < n * c then m.load (idx / c) (idx % c) else none, n * c) := by
  induction n with
  | zero =>
    simp only [forLoop, Nat.zero_mul]
    congr 1
  | succ n ih =>
    have h1 : n * c + c = (n + 1) * c := by ring
    have h2 : n * c < ULONG_MOD := by omega
    rw [forLoop_succ, ih h2, mtv_inner m n c _ (n * c) (by omega)]
    congr 1
    funext idx
    by_cases h3 : n * c ≤ idx ∧ idx < n * c + c
    · rw [if_pos h3, if_pos (by omega)]
      obtain ⟨j, rfl⟩ : ∃ j, idx = n * c + j := ⟨idx - n * c, by omega⟩
      have hj : j < c := by omega
      obtain ⟨hd, hm⟩ := div_mod_of_row c n j hj
      rw [hd, hm]
      congr 1
      omega
    · rw [if_neg h3]
      by_cases h4 : idx < n * c
      · rw [if_pos h4, if_pos (by omega)]
      · rw [if_neg h4, if_neg (by omega)]

/-- Closed form of `matrix_to_vector` when `l * c` fits an `unsigned long`. -/
theorem matrix_to_vector_eq {α : Type} (m : Mat α) (l c : Nat) (b : Bool)
    (h : l * c < ULONG_MOD) :
    matrix_to_vector m l c b =
      (fun idx => if idx < l * c then m.load (idx / c) (idx % c) else none,
        if b then some (l * c) else none) := by
  simp only [matrix_to_vector]
  rw [mtv_outer m c l h, Nat.mod_eq_of_lt h]

theorem vtm_alloc {α : Type} (n : Nat) :
    forLoop n (fun i (r : Mat α) => r.setRow i Vec.empty) Mat.empty =
      fun i => if i < n then some Vec.empty else none := by
  induction n with
  | zero =>
    funext i
    simp [forLoop, Mat.empty]
  | succ n ih =>
    rw [forLoop_succ, ih]
    funext i
    simp only [Mat.setRow]
    by_cases h1 : i = n
    · rw [if_pos h1, if_pos (by omega)]
    · rw [if_neg h1]
      by_cases h2 : i < n
      · rw [if_pos h2, if_pos (by omega)]
      · rw [if_neg h2, if_neg (by omega)]

theorem vtm_inner {α : Type} (v : Vec α) (i n : Nat) (r : Mat α) (row : Vec α) (k : Nat)
    (hrow : r i = some row) (hk : k + n < ULONG_MOD) :
    forLoop n (fun j s => vtmStep v i j s) (r, k) =
      (r.setRow i (fun j => if j < n then v (k + j) else row j), k + n) := by
  induction n with
  | zero =>
    simp only [forLoop, Nat.add_zero]
    congr 1
    funext a
    simp only [Mat.setRow]
    by_cases h : a = i
    · rw [if_pos h, h, hrow]
      congr 1
    · rw [if_neg h]
  | succ n ih =>
    rw [forLoop_succ, ih (by omega)]
    simp only [vtmStep, Mat.store]
    have hset : Mat.setRow r i (fun j => if j < n then v (k + j) else row j) i =
        some (fun j => if j < n then v (k + j) else row j) := by
      simp [Mat.setRow]
    rw [hset, Nat.mod_eq_of_lt (by omega)]
    congr 1
    funext a
    simp only [Mat.setRow]
    by_cases h : a = i
    · rw [if_pos h, if_pos h]
      congr 1
      funext j
      simp only [Vec.store]
      by_cases h1 : j = n
      · subst h1
        rw [if_pos rfl, if_pos (by omega)]
      · rw [if_neg h1]
        by_cases h2 : j < n
        · rw [if_pos h2, if_pos (by omega)]
        · rw [if_neg h2, if_neg (by omega)]
    · rw [if_neg h, if_neg h, if_neg h]

theorem vtm_outer {α : Type} (v : Vec α) (cv mlines n : Nat) (hn : n ≤ mlines)
    (hk : n * cv < ULONG_MOD) :
    forLoop n (fun i s => forLoop cv (fun j s => vtmStep v i j s) s)
        ((fun i => if i < mlines then some Vec.empty else none : Mat α), 0) =
      (fun i => if i < n then some (fun j => if j < cv then v (i * cv + j) else none)
        else if i < mlines then some Vec.empty else none, n * cv) := by
  induction n with
  | zero =>
    simp only [forLoop, Nat.zero_mul]
    congr 1
  | succ n ih =>
    have h1 : n * cv + cv = (n + 1) * cv := by ring
    rw [forLoop_succ, ih (by omega) (by omega)]
    rw [vtm_inner v n cv _ Vec.empty (n * cv)
      (by rw [if_neg (by omega), if_pos (by omega)]) (by omega)]
    rw [h1]
    congr 1
    funext a
    simp only [Mat.setRow]
    by_cases h : a = n
    · subst h
      rw [if_pos rfl, if_pos (by omega)]
      rfl
    · rw [if_neg h]
      by_cases h2 : a < n
      · rw [if_pos h2, if_pos (by omega)]
      · have h3 : ¬ a < n + 1 := by omega
        simp only [if_neg h2, if_neg h3]

/-- Closed form of `vector_to_matrix` for a column count `cv ≥ 1` and a length that is
an `unsigned long`. -/
theorem vector_to_matrix_eq {α : Type} (v : Vec α) (vlen cv : Nat) (hcv : 1 ≤ cv)
    (hlen : vlen < ULONG_MOD) :
    vector_to_matrix v vlen cv =
      some (fun i => if i < vlen / cv
        then some (fun j => if j < cv then v (i * cv + j) else none) else none) := by
  have h1 : vlen / cv * cv ≤ vlen := Nat.div_mul_le_self vlen cv
  simp only [vector_to_matrix]
  rw [if_neg (by omega), vtm_alloc, vtm_outer v cv (vlen / cv) (vlen / cv) le_rfl (by omega)]
  congr 1
  funext i
  dsimp only
  by_cases h : i < vlen / cv
  · simp only [if_pos h]
  · simp only [if_neg h]

theorem load_rows {α : Type} (n : Nat) (f : Nat → Vec α) (i j : Nat) (hi : i < n) :
    Mat.load (fun a => if a < n then some (f a) else none) i j = f i j := by
  simp [Mat.load, hi]

/-- C3.  For a column count `cv ≥ 1` and a vector `v` whose length `vlen` (an
`unsigned long`) is divisible by `cv`, `vector_to_matrix` returns a matrix of exactly
`vlen / cv` rows of `cv` columns with `r[i][j] = v[i * cv + j]`, and every element of `v`
is at exactly one place of the result. -/
theorem vector_to_matrix_rebuilds {α : Type} (v : Vec α) (vlen cv : Nat) (hcv : 1 ≤ cv)
    (hdiv : cv ∣ vlen) (hlen : vlen < ULONG_MOD)
    (hv : ∀ k, k < vlen → (v k).isSome = true) :
    ∃ r, vector_to_matrix v vlen cv = some r ∧ HasShape r (vlen / cv) cv ∧
      (∀ i, i < vlen / cv → ∀ j, j < cv → r.load i j = v (i * cv + j)) ∧
      ∀ k, k < vlen → ∃! p : Nat × Nat,
        p.1 < vlen / cv ∧ p.2 < cv ∧ p.1 * cv + p.2 = k ∧ r.load p.1 p.2 = v k := by
  have hmul : vlen / cv * cv = vlen := Nat.div_mul_cancel hdiv
  rw [vector_to_matrix_eq v vlen cv hcv hlen]
  have hload : ∀ i, i < vlen / cv → ∀ j, j < cv →
      Mat.load (fun i => if i < vlen / cv
        then some (fun j => if j < cv then v (i * cv + j) else none) else none) i j =
        v (i * cv + j) := by
    intro i hi j hj
    rw [load_rows _ _ i j hi]
    simp only [if_pos hj]
  refine ⟨_, rfl, ⟨?_, ?_⟩, hload, ?_⟩
  · intro i
    by_cases h : i < vlen / cv
    · simp [h]
    · simp [h]
  · intro i hi j
    by_cases hj : j < cv
    · rw [hload i hi j hj]
      have hlt := row_index_lt _ cv i j hi hj
      simp only [hj, iff_true]
      exact hv _ (by omega)
    · simp [Mat.load, hi, hj]
  · intro k hk
    have hc : 0 < cv := by omega
    have hrow : k / cv < vlen / cv := by
      rw [Nat.div_lt_iff_lt_mul hc, hmul]; exact hk
    refine ⟨(k / cv, k % cv), ⟨hrow, Nat.mod_lt _ hc, Nat.div_add_mod' k cv, ?_⟩, ?_⟩
    · dsimp only
      rw [hload _ hrow _ (Nat.mod_lt _ hc), Nat.div_add_mod']
    · rintro ⟨i, j⟩ ⟨-, hj, hk2, -⟩
      dsimp only at hj hk2
      obtain ⟨hd, hmod⟩ := div_mod_of_row cv i j hj
      rw [hk2] at hd hmod
      rw [hd, hmod]

/-- A vector of six naturals rebuilt with three columns. -/
theorem vector_to_matrix_rebuilds_witness :
    ∃ r, vector_to_matrix (fun k => some (k + 1)) 6 3 = some r ∧ HasShape r (6 / 3) 3 ∧
      (∀ i, i < 6 / 3 → ∀ j, j < 3 → r.load i j = (fun k => some (k + 1)) (i * 3 + j)) ∧
      ∀ k, k < 6 → ∃! p : Nat × Nat,
        p.1 < 6 / 3 ∧ p.2 < 3 ∧ p.1 * 3 + p.2 = k ∧
          r.load p.1 p.2 = (fun k => some (k + 1)) k :=
  vector_to_matrix_rebuilds (fun k => some (k + 1)) 6 3 (by decide) (by decide) (by decide)
    (fun _ _ => rfl)

/-! ## Control flow of `main` -/

theorem build_program_returns (env : Env) (h : (build_program env).2 = true) :
    env.fileFound = true ∧ 0 ≤ env.programErr ∧ 0 ≤ env.buildErr ∧
      (build_program env).1 =
        [Event.create Obj.program env.programErr, Event.build env.buildErr] := by
  unfold build_program at h ⊢
  split_ifs at h ⊢ with h1 h2 h3
  simp only [Bool.not_eq_false] at h1
  exact ⟨h1, by omega, by omega, rfl⟩

theorem create_device_none (env : Env) (h : create_device env = none) :
    main env = exitWith [] := by
  unfold main
  rw [h]

theorem main_cases (env : Env) :
    (create_device env = none ∧ main env = exitWith []) ∨
    (env.contextErr < 0 ∧ main env = exitWith ((successTrace env).take 1)) ∨
    (env.fileFound = false ∧ main env = exitWith ((successTrace env).take 1)) ∨
    (env.programErr < 0 ∧ main env = exitWith ((successTrace env).take 2)) ∨
    (env.buildErr < 0 ∧ main env = exitWith ((successTrace env).take 3)) ∨
    (env.bufOutErr < 0 ∧ main env = exitWith ((successTrace env).take 6)) ∨
    (env.queueErr < 0 ∧ main env = exitWith ((successTrace env).take 7)) ∨
    (env.kernelErr < 0 ∧ main env = exitWith ((successTrace env).take 8)) ∨
    (clOr (clOr (clOr (clOr env.arg0Err env.arg1Err) env.arg2Err) env.arg3Err)
        env.arg4Err < 0 ∧ main env = exitWith ((successTrace env).take 13)) ∨
    (0 ≤ clOr (clOr (clOr (clOr env.arg0Err env.arg1Err) env.arg2Err) env.arg3Err)
        env.arg4Err ∧ 0 ≤ env.contextErr ∧ 0 ≤ env.programErr ∧ 0 ≤ env.bufOutErr ∧
        0 ≤ env.queueErr ∧ 0 ≤ env.kernelErr ∧
      ((env.enqueueErr < 0 ∧ main env = exitWith ((successTrace env).take 14)) ∨
       (env.readErr < 0 ∧ main env = exitWith ((successTrace env).take 15)) ∨
       main env = ⟨successTrace env, 0, successRes env⟩)) := by
  cases hd : create_device env with
  | none => exact Or.inl ⟨rfl, create_device_none env hd⟩
  | some d =>
    right
    have hm : main env = main env := rfl
    conv at hm => rhs; unfold main
    rw [hd] at hm
    dsimp only at hm
    by_cases h1 : env.contextErr < 0
    · rw [if_pos h1] at hm
      exact Or.inl ⟨h1, hm⟩
    rw [if_neg h1] at hm
    right
    by_cases h2 : (build_program env).2 = false
    · rw [if_pos h2] at hm
      unfold build_program at h2 hm
      by_cases h21 : env.fileFound = false
      · rw [if_pos h21] at hm
        exact Or.inl ⟨h21, hm⟩
      rw [if_neg h21] at hm h2
      right
      by_cases h22 : env.programErr < 0
      · rw [if_pos h22] at hm
        exact Or.inl ⟨h22, hm⟩
      rw [if_neg h22] at hm h2
      right
      by_cases h23 : env.buildErr < 0
      · rw [if_pos h23] at hm
        exact Or.inl ⟨h23, hm⟩
      rw [if_neg h23] at h2
      exact absurd h2 (by simp)
    rw [if_neg h2] at hm
    simp only [Bool.not_eq_false] at h2
    obtain ⟨-, hprog, -, hb⟩ := build_program_returns env h2
    rw [hb] at hm
    right; right; right
    by_cases h3 : env.bufOutErr < 0
    · rw [if_pos h3] at hm
      exact Or.inl ⟨h3, hm⟩
    rw [if_neg h3] at hm
    right
    by_cases h4 : env.queueErr < 0
    · rw [if_pos h4] at hm
      exact Or.inl ⟨h4, hm⟩
    rw [if_neg h4] at hm
    right
    by_cases h5 : env.kernelErr < 0
    · rw [if_pos h5] at hm
      exact Or.inl ⟨h5, hm⟩
    rw [if_neg h5] at hm
    right
    by_cases h6 : clOr (clOr (clOr (clOr env.arg0Err env.arg1Err) env.arg2Err) env.arg3Err)
        env.arg4Err < 0
    · rw [if_pos h6] at hm
      exact Or.inl ⟨h6, hm⟩
    rw [if_neg h6] at hm
    right
    refine ⟨by omega, by omega, hprog, by omega, by omega, by omega, ?_⟩
    by_cases h7 : env.enqueueErr < 0
    · rw [if_pos h7] at hm
      exact Or.inl ⟨h7, hm⟩
    rw [if_neg h7] at hm
    right
    by_cases h8 : env.readErr < 0
    · rw [if_pos h8] at hm
      exact Or.inl ⟨h8, hm⟩
    rw [if_neg h8] at hm
    exact Or.inr hm

/-! ## Lemmas on rounding and on error codes -/

/-- The search of `findShift` finds the least admissible shift whenever the fuel reaches
it. -/
theorem findShift_spec (fuel s n : Nat) (h : n < 2 ^ (24 + s + fuel)) :
    s ≤ findShift fuel s n ∧ n < 2 ^ (24 + findShift fuel s n) ∧
      (findShift fuel s n = s ∨ 2 ^ (24 + findShift fuel s n - 1) ≤ n) := by
  induction fuel generalizing s with
  | zero => exact ⟨le_rfl, h, Or.inl rfl⟩
  | succ fuel ih =>
    unfold findShift
    by_cases hlt : n < 2 ^ (24 + s)
    · rw [if_pos hlt]
      exact ⟨le_rfl, hlt, Or.inl rfl⟩
    · rw [if_neg hlt]
      have h2 : n < 2 ^ (24 + (s + 1) + fuel) := by
        have : 24 + (s + 1) + fuel = 24 + s + (fuel + 1) := by omega
        rw [this]; exact h
      obtain ⟨h3, h4, h5⟩ := ih (s + 1) h2
      refine ⟨by omega, h4, Or.inr ?_⟩
      rcases h5 with h5 | h5
      · rw [h5]
        have : 24 + (s + 1) - 1 = 24 + s := by omega
        rw [this]
        omega
      · exact h5

/-- Sums and products of small integers are exact; beyond 24 significant bits a sum is
rounded to nearest, ties to even; a product below half the least subnormal is zero. -/
theorem float_arithmetic_samples :
    fadd (F32.ofNat 9) F32.one = F32.ofNat 10 ∧
    fmul (F32.ofNat 3) (F32.ofNat 5) = F32.ofNat 15 ∧
    fadd (F32.ofNat 16777216) F32.one = F32.ofNat 16777216 ∧
    fadd (F32.ofNat 16777218) F32.one = F32.ofNat 16777220 ∧
    fadd (F32.ofNat 5) (F32.finite true (7 * 2 ^ 149)) = F32.finite true (2 * 2 ^ 149) ∧
    fmul (F32.finite false 1) (F32.finite true 1) = F32.finite true 0 := by
  decide

theorem clBits_lt (x : Int) : clBits x < 2 ^ 32 := by
  unfold clBits
  omega

theorem clBits_sign (x : Int) (hx : IsClInt x) : 2 ^ 31 ≤ clBits x ↔ x < 0 := by
  unfold IsClInt at hx
  unfold clBits
  omega

theorem clOfBits_neg (p : Nat) (hp : p < 2 ^ 32) : clOfBits p < 0 ↔ 2 ^ 31 ≤ p := by
  unfold clOfBits
  split_ifs <;> omega

theorem clOfBits_isClInt (p : Nat) (hp : p < 2 ^ 32) : IsClInt (clOfBits p) := by
  unfold clOfBits IsClInt
  split_ifs <;> omega

theorem sign_bit (x : Nat) (hx : x < 2 ^ 32) : x.testBit 31 = true ↔ 2 ^ 31 ≤ x := by
  rw [Nat.testBit_to_div_mod]
  simp only [decide_eq_true_eq]
  omega

theorem lor_sign (a b : Nat) (ha : a < 2 ^ 32) (hb : b < 2 ^ 32) :
    2 ^ 31 ≤ a ||| b ↔ 2 ^ 31 ≤ a ∨ 2 ^ 31 ≤ b := by
  have hab : a ||| b < 2 ^ 32 := Nat.or_lt_two_pow ha hb
  rw [← sign_bit _ hab, ← sign_bit _ ha, ← sign_bit _ hb, Nat.testBit_or]
  simp

theorem clOr_neg (a b : Int) (ha : IsClInt a) (hb : IsClInt b) :
    clOr a b < 0 ↔ a < 0 ∨ b < 0 := by
  unfold clOr
  rw [clOfBits_neg _ (Nat.or_lt_two_pow (clBits_lt a) (clBits_lt b)),
    lor_sign _ _ (clBits_lt a) (clBits_lt b), clBits_sign a ha, clBits_sign b hb]

theorem clOr_isClInt (a b : Int) : IsClInt (clOr a b) :=
  clOfBits_isClInt _ (Nat.or_lt_two_pow (clBits_lt a) (clBits_lt b))

theorem clOr_chain_neg (r0 r1 r2 r3 r4 : Int) (h0 : IsClInt r0) (h1 : IsClInt r1)
    (h2 : IsClInt r2) (h3 : IsClInt r3) (h4 : IsClInt r4) :
    clOr (clOr (clOr (clOr r0 r1) r2) r3) r4 < 0 ↔
      r0 < 0 ∨ r1 < 0 ∨ r2 < 0 ∨ r3 < 0 ∨ r4 < 0 := by
  rw [clOr_neg _ _ (clOr_isClInt _ _) h4, clOr_neg _ _ (clOr_isClInt _ _) h3,
    clOr_neg _ _ (clOr_isClInt _ _) h2, clOr_neg _ _ h0 h1]
  tauto

/-- C7.  Argument binding is all-or-nothing.  For five `cl_int` return codes of the five
`clSetKernelArg` calls, their bitwise OR is negative exactly when one of them is; a run
in which a bind failed ends with exit status 1 without any dispatch, and a run that
dispatched the kernel had no failed bind. -/
theorem bind_all_or_nothing (env : Env) (h0 : IsClInt env.arg0Err) (h1 : IsClInt env.arg1Err)
    (h2 : IsClInt env.arg2Err) (h3 : IsClInt env.arg3Err) (h4 : IsClInt env.arg4Err) :
    (clOr (clOr (clOr (clOr env.arg0Err env.arg1Err) env.arg2Err) env.arg3Err) env.arg4Err < 0 ↔
      env.arg0Err < 0 ∨ env.arg1Err < 0 ∨ env.arg2Err < 0 ∨ env.arg3Err < 0 ∨
        env.arg4Err < 0) ∧
    (env.arg0Err < 0 ∨ env.arg1Err < 0 ∨ env.arg2Err < 0 ∨ env.arg3Err < 0 ∨
        env.arg4Err < 0 → (main env).status = 1 ∧ dispatches (main env).trace = []) ∧
    (dispatches (main env).trace ≠ [] → 0 ≤ env.arg0Err ∧ 0 ≤ env.arg1Err ∧
        0 ≤ env.arg2Err ∧ 0 ≤ env.arg3Err ∧ 0 ≤ env.arg4Err) := by
  have hchain := clOr_chain_neg _ _ _ _ _ h0 h1 h2 h3 h4
  have key : env.arg0Err < 0 ∨ env.arg1Err < 0 ∨ env.arg2Err < 0 ∨ env.arg3Err < 0 ∨
        env.arg4Err < 0 → (main env).status = 1 ∧ dispatches (main env).trace = [] := by
    intro hfail
    have hneg := hchain.mpr hfail
    rcases main_cases env with h | h | h | h | h | h | h | h | h | h
    · rw [h.2]; exact ⟨rfl, rfl⟩
    · rw [h.2]; exact ⟨rfl, rfl⟩
    · rw [h.2]; exact ⟨rfl, rfl⟩
    · rw [h.2]; exact ⟨rfl, rfl⟩
    · rw [h.2]; exact ⟨rfl, rfl⟩
    · rw [h.2]; exact ⟨rfl, rfl⟩
    · rw [h.2]; exact ⟨rfl, rfl⟩
    · rw [h.2]; exact ⟨rfl, rfl⟩
    · rw [h.2]; exact ⟨rfl, rfl⟩
    · omega
  refine ⟨hchain, key, ?_⟩
  intro hd
  by_contra hcon
  exact hd (key (by omega)).2

/-- A run whose third bind reports `CL_INVALID_MEM_OBJECT`. -/
theorem bind_all_or_nothing_witness :
    (clOr (clOr (clOr (clOr (0 : Int) 0) (-38)) 0) 0 < 0 ↔
      (0 : Int) < 0 ∨ (0 : Int) < 0 ∨ (-38 : Int) < 0 ∨ (0 : Int) < 0 ∨ (0 : Int) < 0) ∧
    ((0 : Int) < 0 ∨ (0 : Int) < 0 ∨ (-38 : Int) < 0 ∨ (0 : Int) < 0 ∨ (0 : Int) < 0 →
      (main Env.argFails).status = 1 ∧
        dispatches (main Env.argFails).trace = []) ∧
    (dispatches (main Env.argFails).trace ≠ [] →
      (0 : Int) ≤ 0 ∧ (0 : Int) ≤ 0 ∧ (0 : Int) ≤ -38 ∧ (0 : Int) ≤ 0 ∧ (0 : Int) ≤ 0) :=
  bind_all_or_nothing Env.argFails (by decide) (by decide) (by decide)
    (by decide) (by decide)


/-- C8.  Device selection once a platform is found: the GPU device when the GPU query
succeeds; the CPU device when the GPU query reports `CL_DEVICE_NOT_FOUND` and the CPU
query succeeds; and when neither query yields a device, no handle is returned and the
run ends with exit status 1 before any device object is created. -/
theorem create_device_gpu_then_cpu (env : Env) (hp : 0 ≤ env.platformErr) :
    (0 ≤ env.gpuErr → create_device env = some Device.gpu) ∧
    (env.gpuErr = CL_DEVICE_NOT_FOUND → 0 ≤ env.cpuErr →
      create_device env = some Device.cpu) ∧
    (env.gpuErr < 0 → env.cpuErr < 0 →
      create_device env = none ∧ (main env).status = 1 ∧ (main env).trace = []) := by
  have hnp : ¬ env.platformErr < 0 := by omega
  refine ⟨?_, ?_, ?_⟩
  · intro hg
    have h1 : ¬ env.gpuErr = CL_DEVICE_NOT_FOUND := by
      unfold CL_DEVICE_NOT_FOUND; omega
    have h2 : ¬ env.gpuErr < 0 := by omega
    simp only [create_device, if_neg hnp, if_neg h1, if_neg h2]
  · intro hg hc
    have h2 : ¬ env.cpuErr < 0 := by omega
    simp only [create_device, if_neg hnp, if_pos hg, if_neg h2]
  · intro hg hc
    have hnone : create_device env = none := by
      by_cases h1 : env.gpuErr = CL_DEVICE_NOT_FOUND
      · simp only [create_device, if_neg hnp, if_pos h1, if_pos hc]
      · simp only [create_device, if_neg hnp, if_neg h1, if_pos hg]
    rw [create_device_none env hnone]
    exact ⟨hnone, rfl, rfl⟩

/-- A host without GPU: the GPU query reports `CL_DEVICE_NOT_FOUND`. -/
theorem create_device_gpu_then_cpu_witness :
    ((0 : Int) ≤ -1 → create_device Env.noGpu = some Device.gpu) ∧
    ((-1 : Int) = CL_DEVICE_NOT_FOUND → (0 : Int) ≤ 0 →
      create_device Env.noGpu = some Device.cpu) ∧
    ((-1 : Int) < 0 → (0 : Int) < 0 →
      create_device Env.noGpu = none ∧
        (main Env.noGpu).status = 1 ∧
        (main Env.noGpu).trace = []) :=
  create_device_gpu_then_cpu Env.noGpu (by decide)

/-- C6 fails on the code.  When the creation of the first input buffer fails and the
other calls succeed, `main` still creates the command queue, dispatches the kernel and
ends with exit status 0: only the error code of the third creation is tested. -/
theorem buffer_failure_unnoticed :
    Env.bufAFails.bufAErr < 0 ∧ (main Env.bufAFails).status = 0 ∧
    queueCreations (main Env.bufAFails).trace = [Event.create Obj.queue 0] ∧
    dispatches (main Env.bufAFails).trace = [Event.enqueueKernel 3500 70 0] := by
  decide

/-- C9 fails on aborted runs.  When the program file is missing, `main` exits with
status 1 while the context it created is still live. -/
theorem context_leaked_on_missing_file :
    (main Env.noFile).status = 1 ∧ (liveObjects (main Env.noFile).trace).length = 1 := by
  decide

theorem liveObjects_successTrace (env : Env) (h1 : 0 ≤ env.contextErr)
    (h2 : 0 ≤ env.programErr) (h3 : 0 ≤ env.bufOutErr) (h4 : 0 ≤ env.queueErr)
    (h5 : 0 ≤ env.kernelErr) : liveObjects (successTrace env) = [] := by
  have e1 : ¬ env.contextErr < 0 := by omega
  have e2 : ¬ env.programErr < 0 := by omega
  have e3 : ¬ env.bufOutErr < 0 := by omega
  have e4 : ¬ env.queueErr < 0 := by omega
  have e5 : ¬ env.kernelErr < 0 := by omega
  by_cases hA : env.bufAErr < 0 <;> by_cases hB : env.bufBErr < 0 <;>
    simp only [liveObjects, successTrace, List.foldl, liveStep, if_neg e1, if_neg e2,
      if_neg e3, if_neg e4, if_neg e5, hA, hB, if_true, if_false] <;> decide


theorem main_success (env : Env) (h : (main env).status = 0) :
    main env = ⟨successTrace env, 0, successRes env⟩ ∧ 0 ≤ env.contextErr ∧
      0 ≤ env.programErr ∧ 0 ≤ env.bufOutErr ∧ 0 ≤ env.queueErr ∧ 0 ≤ env.kernelErr := by
  rcases main_cases env with h1 | h1 | h1 | h1 | h1 | h1 | h1 | h1 | h1 |
    ⟨-, c1, c2, c3, c4, c5, h1 | h1 | h1⟩
  all_goals first
    | exact ⟨h1, c1, c2, c3, c4, c5⟩
    | (rw [h1.2] at h; exact absurd h (by simp [exitWith]))

/-- C9, as amended.  Over the counting model of the device API, every run of `main`
that succeeds (exit status 0) ends with no live device-side object. -/
theorem no_live_object_after_success (env : Env) (h : (main env).status = 0) :
    (liveObjects (main env).trace).length = 0 := by
  obtain ⟨hm, c1, c2, c3, c4, c5⟩ := main_success env h
  rw [hm]
  show (liveObjects (successTrace env)).length = 0
  rw [liveObjects_successTrace env c1 c2 c3 c4 c5]
  rfl

/-- The run in which every call succeeds. -/
theorem no_live_object_after_success_witness :
    (main Env.ok).status = 0 ∧ (liveObjects (main Env.ok).trace).length = 0 :=
  ⟨by decide, no_live_object_after_success Env.ok (by decide)⟩

theorem liveObjects_before_context_release (env : Env) (h1 : 0 ≤ env.contextErr)
    (h2 : 0 ≤ env.programErr) (h3 : 0 ≤ env.bufOutErr) (h4 : 0 ≤ env.queueErr)
    (h5 : 0 ≤ env.kernelErr) : liveObjects ((successTrace env).take 21) = [Obj.context] := by
  have e1 : ¬ env.contextErr < 0 := by omega
  have e2 : ¬ env.programErr < 0 := by omega
  have e3 : ¬ env.bufOutErr < 0 := by omega
  have e4 : ¬ env.queueErr < 0 := by omega
  have e5 : ¬ env.kernelErr < 0 := by omega
  by_cases hA : env.bufAErr < 0 <;> by_cases hB : env.bufBErr < 0 <;>
    simp only [liveObjects, successTrace, List.take, List.foldl, liveStep, if_neg e1, if_neg e2,
      if_neg e3, if_neg e4, if_neg e5, hA, hB, if_true, if_false] <;> decide

/-- C10.  Teardown order.  A successful run releases, as its last seven calls and in
this order, the kernel, buffer A, buffer B, the output buffer, the command queue, the
program and the context, each once; when the context is released no other object is
live; the device handle is never released. -/
theorem teardown_order (env : Env) (h : (main env).status = 0) :
    releases (main env).trace = [Obj.kernel, Obj.bufA, Obj.bufB, Obj.bufOut, Obj.queue,
      Obj.program, Obj.context] ∧
    (∃ pre, (main env).trace = pre ++ [Event.release Obj.kernel, Event.release Obj.bufA,
        Event.release Obj.bufB, Event.release Obj.bufOut, Event.release Obj.queue,
        Event.release Obj.program, Event.release Obj.context] ∧ releases pre = []) ∧
    (∃ pre, (main env).trace = pre ++ [Event.release Obj.context] ∧
      ∀ o, o ∈ liveObjects pre → o = Obj.context) ∧
    Obj.device ∉ releases (main env).trace := by
  obtain ⟨hm, c1, c2, c3, c4, c5⟩ := main_success env h
  rw [hm]
  refine ⟨rfl, ⟨(successTrace env).take 15, rfl, rfl⟩, ⟨(successTrace env).take 21, rfl, ?_⟩, ?_⟩
  · intro o ho
    rw [liveObjects_before_context_release env c1 c2 c3 c4 c5] at ho
    simpa using ho
  · show Obj.device ∉ releases (successTrace env)
    have : releases (successTrace env) = [Obj.kernel, Obj.bufA, Obj.bufB, Obj.bufOut,
      Obj.queue, Obj.program, Obj.context] := rfl
    rw [this]
    decide

/-- The teardown of the run in which every call succeeds. -/
theorem teardown_order_witness :
    (main Env.ok).status = 0 ∧
    releases (main Env.ok).trace = [Obj.kernel, Obj.bufA, Obj.bufB, Obj.bufOut, Obj.queue,
      Obj.program, Obj.context] ∧
    (∃ pre, (main Env.ok).trace = pre ++ [Event.release Obj.kernel, Event.release Obj.bufA,
        Event.release Obj.bufB, Event.release Obj.bufOut, Event.release Obj.queue,
        Event.release Obj.program, Event.release Obj.context] ∧ releases pre = []) ∧
    (∃ pre, (main Env.ok).trace = pre ++ [Event.release Obj.context] ∧
      ∀ o, o ∈ liveObjects pre → o = Obj.context) ∧
    Obj.device ∉ releases (main Env.ok).trace :=
  ⟨by decide, teardown_order Env.ok (by decide)⟩

/-! ## The end-to-end run -/

theorem forLoop_congr {σ : Type} (n : Nat) (f g : Nat → σ → σ) (s : σ)
    (h : ∀ i, i < n → ∀ s, f i s = g i s) : forLoop n f s = forLoop n g s := by
  induction n with
  | zero => rfl
  | succ n ih =>
    rw [forLoop_succ, forLoop_succ, ih (fun i hi => h i (by omega)), h n (by omega)]

theorem fill_inner (x : F32) (i n : Nat) (m : Mat F32) (row : Vec F32) (hrow : m i = some row) :
    forLoop n (fun j m => Mat.store m i j (some x)) m =
      m.setRow i (fun j => if j < n then some x else row j) := by
  induction n with
  | zero =>
    simp only [forLoop]
    funext a
    simp only [Mat.setRow]
    by_cases h : a = i
    · rw [if_pos h, h, hrow]
      congr 1
    · rw [if_neg h]
  | succ n ih =>
    rw [forLoop_succ, ih]
    simp only [Mat.store]
    have hset : Mat.setRow m i (fun j => if j < n then some x else row j) i =
        some (fun j => if j < n then some x else row j) := by
      simp [Mat.setRow]
    rw [hset]
    funext a
    simp only [Mat.setRow]
    by_cases h : a = i
    · rw [if_pos h, if_pos h]
      congr 1
      funext j
      simp only [Vec.store]
      by_cases h1 : j = n
      · subst h1
        rw [if_pos rfl, if_pos (by omega)]
      · rw [if_neg h1]
        by_cases h2 : j < n
        · rw [if_pos h2, if_pos (by omega)]
        · rw [if_neg h2, if_neg (by omega)]
    · rw [if_neg h, if_neg h, if_neg h]

theorem fillRows_eq (rows cols : Nat) (x : F32) :
    fillRows rows cols x =
      fun i => if i < rows then some (fun j => if j < cols then some x else none)
        else none := by
  unfold fillRows
  induction rows with
  | zero =>
    funext i
    simp [forLoop, Mat.empty]
  | succ n ih =>
    rw [forLoop_succ, ih, fill_inner x n cols _ Vec.empty (by simp [Mat.setRow])]
    funext a
    simp only [Mat.setRow]
    by_cases h : a = n
    · subst h
      rw [if_pos rfl, if_pos (by omega)]
      rfl
    · rw [if_neg h, if_neg h]
      by_cases h2 : a < n
      · rw [if_pos h2, if_pos (by omega)]
      · rw [if_neg h2, if_neg (by omega)]

theorem flat_fill (rows cols : Nat) (x : F32) (h : rows * cols < ULONG_MOD) (idx : Nat)
    (hidx : idx < rows * cols) :
    (matrix_to_vector (fillRows rows cols x) rows cols false).1 idx = some x := by
  have hc : 0 < cols := by
    rcases Nat.eq_zero_or_pos cols with h0 | h0
    · subst h0; simp at hidx
    · exact h0
  have hrow : idx / cols < rows := by
    rw [Nat.div_lt_iff_lt_mul hc]; exact hidx
  rw [matrix_to_vector_eq _ _ _ _ h, fillRows_eq]
  dsimp only
  rw [if_pos hidx, load_rows rows _ _ _ hrow, if_pos (Nat.mod_lt _ hc)]

theorem dot_ones :
    forLoop 10 (fun _ acc => macStep acc (some F32.one) (some F32.one)) (some F32.zero) =
      some (F32.ofNat 10) := by
  decide

theorem multiply_matrix_ones (A B : Vec F32) (g : Nat) (hg : g < 3500)
    (hA : ∀ k, k < 500 → A k = some F32.one) (hB : ∀ k, k < 700 → B k = some F32.one) :
    multiply_matrix A B 10 70 g = some (F32.ofNat 10) := by
  unfold multiply_matrix
  rw [forLoop_congr 10 _ (fun _ acc => macStep acc (some F32.one) (some F32.one)), dot_ones]
  intro t ht acc
  rw [hA _ (by omega), hB _ (by omega)]

theorem successRes_ones (env : Env) (hA : 0 ≤ env.bufAErr) (hB : 0 ≤ env.bufBErr) :
    successRes env = some (fun i => if i < 50
      then some (fun j => if j < 70 then some (F32.ofNat 10) else none) else none) := by
  unfold successRes
  rw [vector_to_matrix_eq _ _ _ (by decide) (by decide)]
  congr 1
  funext i
  by_cases hi : i < 50
  · have hi2 : i < LM1 * CM2 % 2 ^ 32 / CM2 := hi
    rw [if_pos hi, if_pos hi2]
    congr 1
    funext j
    by_cases hj : j < 70
    · have hj2 : j < CM2 := hj
      rw [if_pos hj, if_pos hj2]
      have hg : i * CM2 + j < 3500 := by
        show i * 70 + j < 3500
        omega
      have hg2 : i * CM2 + j < LM1 * CM2 := hg
      simp only [readBack, runKernel, dispatchGeometry]
      rw [if_pos hg2, if_pos hg2]
      apply multiply_matrix_ones _ _ _ hg
      · intro k hk
        have hk2 : k < LM1 * CM := hk
        simp only [createBuffer]
        rw [if_neg (by omega), if_pos hk2]
        exact flat_fill 50 10 _ (by decide) k hk
      · intro k hk
        have hk2 : k < CM * CM2 := hk
        simp only [createBuffer]
        rw [if_neg (by omega), if_pos hk2]
        exact flat_fill 10 70 _ (by decide) k hk
    · have hj2 : ¬ j < CM2 := hj
      rw [if_neg hj, if_neg hj2]
  · have hi2 : ¬ i < LM1 * CM2 % 2 ^ 32 / CM2 := hi
    rw [if_neg hi, if_neg hi2]

/-- C4.  End to end.  With `A` 50x10 and `B` 10x70 filled with `1.0f`, a run of `main`
that reaches its end with both input buffers created prints a matrix of exactly 50 rows
and 70 columns whose every element is `10.0f`, the kernel being the one modelled from
the spec. -/
theorem main_all_ones (env : Env) (h : (main env).status = 0) (hA : 0 ≤ env.bufAErr)
    (hB : 0 ≤ env.bufBErr) :
    ∃ r, (main env).res = some r ∧ HasShape r 50 70 ∧
      ∀ i, i < 50 → ∀ j, j < 70 → r.load i j = some (F32.ofNat 10) := by
  obtain ⟨hm, -⟩ := main_success env h
  rw [hm]
  refine ⟨_, successRes_ones env hA hB, ⟨?_, ?_⟩, ?_⟩
  · intro i
    by_cases hi : i < 50
    · simp [hi]
    · simp [hi]
  · intro i hi j
    rw [load_rows 50 _ i j hi]
    by_cases hj : j < 70
    · simp [hj]
    · simp [hj]
  · intro i hi j hj
    rw [load_rows 50 _ i j hi, if_pos hj]

/-- The result of the run in which every call succeeds. -/
theorem main_all_ones_witness :
    (main Env.ok).status = 0 ∧ ∃ r, (main Env.ok).res = some r ∧ HasShape r 50 70 ∧
      ∀ i, i < 50 → ∀ j, j < 70 → r.load i j = some (F32.ofNat 10) :=
  ⟨by decide, main_all_ones Env.ok (by decide) (by decide) (by decide)⟩

end MatrixMultiply
